import Mathlib

/-!
Verification of the EM3000S-Controller repository (src/HolmarcMagnet.py,
src/best_test.py) against its natural-language specification.

Modelling conventions:
* Python floats are modelled as exact rationals (ℚ).  Every concrete input
  used below was checked to produce the same truncation result under IEEE-754
  double arithmetic as under exact rational arithmetic (the products are far
  from integer boundaries).
* Python exceptions are modelled with `Option`/`Except`: a raising call
  becomes `none` / `Except.error`.
* The serial transport is modelled as a scripted list of read results
  (`some b` = a byte arrives, `none` = the 2-second timeout fires; an
  exhausted script also times out) together with the list of bytes written
  so far.
-/

namespace Holmarc

/-- The constant `(1299-35)/(4.0-0.1)` from HolmarcMagnet.py line 34
(spec name: SCALE). -/
def SCALE : ℚ := (1299 - 35) / (4.0 - 0.1)

/-- Lowercase hexadecimal digit character, as produced by Python `hex()`:
`0`-`9` then `a`-`f`. -/
def hexDigitChar (d : ℕ) : Char :=
  if d < 10 then Char.ofNat (48 + d) else Char.ofNat (87 + d)

/-- Digit list (most significant first) of `n` written in base 16, as it
appears after the `0x` of Python `hex(n)`; `hex(0) = "0x0"` so 0 has the
single digit `0`. -/
def natHexDigits (n : ℕ) : List Char :=
  if _h : n < 16 then [hexDigitChar n]
  else natHexDigits (n / 16) ++ [hexDigitChar (n % 16)]
termination_by n
decreasing_by
  exact Nat.div_lt_self (by omega) (by omega)

/-- Python `hex(n)` for a nonnegative `n`, as a character list: `0x` followed
by the lowercase hex digits. -/
def pyHex (n : ℕ) : List Char := '0' :: 'x' :: natHexDigits n

/-- Value of one hexadecimal digit character as accepted by Python
`int(_, 16)` (both cases); `none` for a non-hex-digit character. -/
def hexDigitVal (c : Char) : Option ℕ :=
  if 48 ≤ c.toNat ∧ c.toNat ≤ 57 then some (c.toNat - 48)
  else if 97 ≤ c.toNat ∧ c.toNat ≤ 102 then some (c.toNat - 87)
  else if 65 ≤ c.toNat ∧ c.toNat ≤ 70 then some (c.toNat - 55)
  else none

/-- Accumulator pass of plain base-16 parsing. -/
def parseHexAux (acc : ℕ) : List Char → Option ℕ
  | [] => some acc
  | c :: cs =>
    match hexDigitVal c with
    | some d => parseHexAux (16 * acc + d) cs
    | none => none

/-- Python `int(s, 16)` restricted to the strings this program feeds it
(no sign, no whitespace, no `0x` form ever succeeds here because the only
non-digit character that can occur is a leftover `x`, which Python also
rejects).  `none` models the `ValueError`. -/
def pyIntHex (s : List Char) : Option ℕ :=
  if s.isEmpty then none else parseHexAux 0 s

/-- Python slice `s[-2:]` on a character list. -/
def sliceLastTwo (s : List Char) : List Char := s.drop (s.length - 2)

/-- Python slice `s[:-2]` on a character list. -/
def sliceDropLastTwo (s : List Char) : List Char := s.take (s.length - 2)

/-- Python `s.split('x')[1]` for the strings occurring here, which contain
exactly one `x` (the one of the `0x` produced by `hex`): everything after
the first `x`. -/
def splitAfterX (s : List Char) : List Char :=
  (s.dropWhile (fun c => c ≠ 'x')).drop 1

/-- `controller.current_map` (HolmarcMagnet.py lines 28-40).

    pos = 1
    if current_amps < 0:
        current_amps = abs(current_amps)
        pos = 0
    mapped = hex(int((1299-35)/(4.0-0.1)*current_amps))
    return_list = [0x00]*4
    return_list[1] = int(mapped[-2:], 16)
    if (zeroth := mapped.split('x')[1][:-2]) != '':
        return_list[0] = int(zeroth, 16)
    return_list[-1] = pos
    return return_list

The argument of `int(...)` is nonnegative (the sign was stripped), so Python
truncation toward zero is `Int.toNat ∘ Int.floor`.  `int(mapped[-2:], 16)`
can raise `ValueError` (modelled by `none`) when `hex` produced fewer than
two digits, because the slice then still contains the `x`. -/
def current_map (current_amps : ℚ) : Option (List ℕ) :=
  let pos : ℕ := if current_amps < 0 then 0 else 1
  let a : ℚ := if current_amps < 0 then |current_amps| else current_amps
  let mapped : List Char := pyHex (Int.toNat ⌊SCALE * a⌋)
  match pyIntHex (sliceLastTwo mapped) with
  | none => none
  | some low =>
    let zeroth := sliceDropLastTwo (splitAfterX mapped)
    if zeroth ≠ [] then
      match pyIntHex zeroth with
      | none => none
      | some high => some [high, low, 0x00, pos]
    else
      some [0x00, low, 0x00, pos]

/-- Keys of the Python dict `controller.CURRENT_MAP` (lines 15-26), which
mixes float keys with one string key. -/
inductive PyKey where
  | num (q : ℚ)
  | str (s : String)
deriving DecidableEq

/-- The dead lookup table `controller.CURRENT_MAP` (HolmarcMagnet.py lines
15-26), recording the captured calibration traffic.  The trailing comments
of the source give the decimal count values (553, 222, 35, 222, 1299, ...). -/
def CURRENT_MAP : List (PyKey × List ℕ) :=
  [ (PyKey.num (-2.0), [0x02, 0x29, 0x00, 0x00]),
    (PyKey.num (-1.0), [0x00, 0xDE, 0x00, 0x00]),
    (PyKey.num (-0.1), [0x00, 0x23, 0x00, 0x00]),
    (PyKey.num 1.0, [0x00, 0xDE, 0x00, 0x01]),
    (PyKey.num 4.0, [0x05, 0x13, 0x00, 0x01]),
    (PyKey.num (-4.0), [0x05, 0x13, 0x00, 0x00]),
    (PyKey.num (-3.9), [0x04, 0xf0, 0x00, 0x00]),
    (PyKey.num (-3.8), [0x04, 0xcd, 0x00, 0x00]),
    (PyKey.str "test", [0x05, 0x14, 0x00, 0x00]) ]

/-- Modelled from the spec: the arithmetic reference encoder of spec
section 4.1, used only to compare the source encoder against the words of
the spec (claim C2).  "Let a = abs(amps), sign = 0x01 if amps >= 0 else
0x00.  Let counts = round(a * SCALE).  Split counts into low = counts &
0xFF, high = counts >> 8.  Returns [high, low, 0x00, sign]." -/
def encode_spec (amps : ℚ) : List ℕ :=
  let a : ℚ := |amps|
  let sign : ℕ := if 0 ≤ amps then 0x01 else 0x00
  let counts : ℕ := (round (a * SCALE)).toNat
  [counts >>> 8, counts &&& 0xFF, 0x00, sign]

/-- Count value produced by line 34 of the source: `int(SCALE * a)` where
`a` is the absolute value of the requested current.  Truncation toward zero
of a nonnegative rational is `Int.toNat ∘ Int.floor`. -/
def encCounts (amps : ℚ) : ℕ := Int.toNat ⌊SCALE * |amps|⌋

lemma natHexDigits_lt {n : ℕ} (h : n < 16) : natHexDigits n = [hexDigitChar n] := by
  rw [natHexDigits]
  simp [h]

lemma natHexDigits_ge {n : ℕ} (h : 16 ≤ n) :
    natHexDigits n = natHexDigits (n / 16) ++ [hexDigitChar (n % 16)] := by
  rw [natHexDigits]
  simp [Nat.not_lt.2 h]

lemma hexDigitVal_hexDigitChar : ∀ d, d < 16 → hexDigitVal (hexDigitChar d) = some d := by
  decide

lemma hexDigitVal_x : hexDigitVal 'x' = none := by decide

lemma natHexDigits_ne_nil (n : ℕ) : natHexDigits n ≠ [] := by
  by_cases h : n < 16
  · simp [natHexDigits_lt h]
  · simp [natHexDigits_ge (Nat.not_lt.1 h)]

lemma parseHexAux_append (acc : ℕ) (xs ys : List Char) :
    parseHexAux acc (xs ++ ys) =
      (parseHexAux acc xs).bind (fun a => parseHexAux a ys) := by
  induction xs generalizing acc with
  | nil => simp [parseHexAux]
  | cons c cs ih =>
    simp only [List.cons_append, parseHexAux]
    cases hexDigitVal c with
    | none => rfl
    | some d => exact ih _

lemma parseHexAux_natHexDigits (n : ℕ) :
    ∀ acc, parseHexAux acc (natHexDigits n) =
      some (acc * 16 ^ (natHexDigits n).length + n) := by
  induction n using Nat.strong_induction_on with
  | _ n ih =>
    intro acc
    by_cases h : n < 16
    · rw [natHexDigits_lt h]
      simp only [parseHexAux, hexDigitVal_hexDigitChar n h, List.length_singleton]
      congr 1
      ring
    · have h16 : 16 ≤ n := Nat.not_lt.1 h
      rw [natHexDigits_ge h16, parseHexAux_append,
        ih (n / 16) (Nat.div_lt_self (by omega) (by omega)) acc]
      simp only [Option.some_bind, parseHexAux,
        hexDigitVal_hexDigitChar (n % 16) (Nat.mod_lt n (by omega)),
        List.length_append, List.length_singleton]
      congr 1
      have hdm : 16 * (n / 16) + n % 16 = n := Nat.div_add_mod n 16
      calc 16 * (acc * 16 ^ (natHexDigits (n / 16)).length + n / 16) + n % 16
          = acc * 16 ^ ((natHexDigits (n / 16)).length + 1) + (16 * (n / 16) + n % 16) := by
            ring
        _ = acc * 16 ^ ((natHexDigits (n / 16)).length + 1) + n := by rw [hdm]

lemma pyIntHex_natHexDigits (n : ℕ) : pyIntHex (natHexDigits n) = some n := by
  rw [pyIntHex, if_neg (by simp [natHexDigits_ne_nil n]), parseHexAux_natHexDigits n 0]
  simp

lemma natHexDigits_mid (n : ℕ) (h : 16 ≤ n) (h2 : n < 256) :
    natHexDigits n = [hexDigitChar (n / 16 % 16), hexDigitChar (n % 16)] := by
  rw [natHexDigits_ge h, natHexDigits_lt (show n / 16 < 16 by omega),
    Nat.mod_eq_of_lt (show n / 16 < 16 by omega)]
  rfl

lemma natHexDigits_big (n : ℕ) (h : 256 ≤ n) :
    natHexDigits n =
      natHexDigits (n / 256) ++ [hexDigitChar (n / 16 % 16), hexDigitChar (n % 16)] := by
  rw [natHexDigits_ge (show 16 ≤ n by omega), natHexDigits_ge (show 16 ≤ n / 16 by omega),
    Nat.div_div_eq_div_mul]
  simp

lemma sliceLastTwo_append (l : List Char) (a b : Char) :
    sliceLastTwo (l ++ [a, b]) = [a, b] := by
  rw [sliceLastTwo]
  have h : (l ++ [a, b]).length - 2 = l.length := by simp
  rw [h, List.drop_left]

lemma sliceDropLastTwo_append (l : List Char) (a b : Char) :
    sliceDropLastTwo (l ++ [a, b]) = l := by
  rw [sliceDropLastTwo]
  have h : (l ++ [a, b]).length - 2 = l.length := by simp
  rw [h, List.take_left]

lemma splitAfterX_pyHex (n : ℕ) : splitAfterX (pyHex n) = natHexDigits n := by
  rw [pyHex, splitAfterX]
  rw [List.dropWhile_cons_of_pos (by decide), List.dropWhile_cons_of_neg (by decide)]
  rfl

lemma pyIntHex_two_digits (a b : ℕ) (ha : a < 16) (hb : b < 16) :
    pyIntHex [hexDigitChar a, hexDigitChar b] = some (16 * a + b) := by
  rw [pyIntHex, if_neg (by simp)]
  simp only [parseHexAux, hexDigitVal_hexDigitChar a ha, hexDigitVal_hexDigitChar b hb]
  norm_num

/-- Characterization of the successful branch of `current_map`: once the
truncated count has at least two hex digits, the hex-string slicing agrees
with the arithmetic byte split. -/
lemma current_map_counts_split (amps : ℚ) (h : 16 ≤ encCounts amps) :
    current_map amps =
      some [encCounts amps / 256, encCounts amps % 256, 0x00,
        if amps < 0 then 0 else 1] := by
  have habs : (if amps < 0 then |amps| else amps) = |amps| := by
    by_cases hneg : amps < 0
    · rw [if_pos hneg]
    · rw [if_neg hneg, abs_of_nonneg (not_lt.1 hneg)]
  have hcnt : Int.toNat ⌊SCALE * (if amps < 0 then |amps| else amps)⌋ = encCounts amps := by
    rw [habs]
    rfl
  rw [current_map]
  simp only [hcnt]
  by_cases hbig : encCounts amps < 256
  · rw [pyHex, natHexDigits_mid (encCounts amps) h hbig]
    have hform : ('0' :: 'x' ::
        [hexDigitChar (encCounts amps / 16 % 16), hexDigitChar (encCounts amps % 16)]) =
        ['0', 'x'] ++ [hexDigitChar (encCounts amps / 16 % 16), hexDigitChar (encCounts amps % 16)] := rfl
    rw [hform, sliceLastTwo_append,
      pyIntHex_two_digits _ _ (Nat.mod_lt _ (by omega)) (Nat.mod_lt _ (by omega))]
    have hlow : 16 * (encCounts amps / 16 % 16) + encCounts amps % 16 = encCounts amps % 256 := by
      omega
    have hsplit : sliceDropLastTwo (splitAfterX (['0', 'x'] ++
        [hexDigitChar (encCounts amps / 16 % 16), hexDigitChar (encCounts amps % 16)])) = [] := by
      have : (['0', 'x'] ++
          [hexDigitChar (encCounts amps / 16 % 16), hexDigitChar (encCounts amps % 16)] : List Char) =
          pyHex (encCounts amps) := by
        rw [pyHex, natHexDigits_mid (encCounts amps) h hbig]
        rfl
      rw [this, splitAfterX_pyHex, natHexDigits_mid (encCounts amps) h hbig]
      rw [show ([hexDigitChar (encCounts amps / 16 % 16), hexDigitChar (encCounts amps % 16)] : List Char) =
        [] ++ [hexDigitChar (encCounts amps / 16 % 16), hexDigitChar (encCounts amps % 16)] from rfl,
        sliceDropLastTwo_append]
    rw [hsplit]
    simp only [ne_eq, not_true_eq_false, if_false, reduceIte]
    rw [hlow, Nat.div_eq_of_lt hbig]
  · have hbig' : 256 ≤ encCounts amps := Nat.not_lt.1 hbig
    rw [pyHex, natHexDigits_big (encCounts amps) hbig']
    have hform : ('0' :: 'x' :: (natHexDigits (encCounts amps / 256) ++
        [hexDigitChar (encCounts amps / 16 % 16), hexDigitChar (encCounts amps % 16)])) =
        ('0' :: 'x' :: natHexDigits (encCounts amps / 256)) ++
        [hexDigitChar (encCounts amps / 16 % 16), hexDigitChar (encCounts amps % 16)] := by
      simp
    rw [hform, sliceLastTwo_append,
      pyIntHex_two_digits _ _ (Nat.mod_lt _ (by omega)) (Nat.mod_lt _ (by omega))]
    have hlow : 16 * (encCounts amps / 16 % 16) + encCounts amps % 16 = encCounts amps % 256 := by
      omega
    have hsplit : sliceDropLastTwo (splitAfterX (('0' :: 'x' ::
        natHexDigits (encCounts amps / 256)) ++
        [hexDigitChar (encCounts amps / 16 % 16), hexDigitChar (encCounts amps % 16)])) =
        natHexDigits (encCounts amps / 256) := by
      have : (('0' :: 'x' :: natHexDigits (encCounts amps / 256)) ++
          [hexDigitChar (encCounts amps / 16 % 16), hexDigitChar (encCounts amps % 16)] : List Char) =
          pyHex (encCounts amps) := by
        rw [pyHex, natHexDigits_big (encCounts amps) hbig']
        simp
      rw [this, splitAfterX_pyHex, natHexDigits_big (encCounts amps) hbig',
        sliceDropLastTwo_append]
    rw [hsplit]
    simp only [ne_eq, natHexDigits_ne_nil, not_false_eq_true, ite_true,
      pyIntHex_natHexDigits, hlow]

/-- Characterization of the raising branch of `current_map`: with fewer
than two hex digits the slice `mapped[-2:]` still contains the `x` of the
`0x`, so `int(mapped[-2:], 16)` raises `ValueError`. -/
lemma current_map_small_none (amps : ℚ) (h : encCounts amps < 16) :
    current_map amps = none := by
  have habs : (if amps < 0 then |amps| else amps) = |amps| := by
    by_cases hneg : amps < 0
    · rw [if_pos hneg]
    · rw [if_neg hneg, abs_of_nonneg (not_lt.1 hneg)]
  have hcnt : Int.toNat ⌊SCALE * (if amps < 0 then |amps| else amps)⌋ = encCounts amps := by
    rw [habs]
    rfl
  rw [current_map]
  simp only [hcnt]
  rw [pyHex, natHexDigits_lt h]
  rw [show sliceLastTwo ['0', 'x', hexDigitChar (encCounts amps)] =
    ['x', hexDigitChar (encCounts amps)] from rfl]
  rw [show pyIntHex ['x', hexDigitChar (encCounts amps)] = none by
    rw [pyIntHex, if_neg (by simp)]
    simp only [parseHexAux, hexDigitVal_x]]

lemma toNat_floor_eval {q : ℚ} {z : ℕ} (h1 : (z : ℚ) ≤ q) (h2 : q < z + 1) :
    (⌊q⌋).toNat = z := by
  have h : ⌊q⌋ = (z : ℤ) := by
    rw [Int.floor_eq_iff]
    constructor
    · exact_mod_cast h1
    · push_cast
      exact h2
  rw [h]
  exact Int.toNat_natCast z

lemma encCounts_eval_nonneg {amps : ℚ} (h0 : 0 ≤ amps) {z : ℕ}
    (h1 : (z : ℚ) ≤ SCALE * amps) (h2 : SCALE * amps < z + 1) : encCounts amps = z := by
  rw [encCounts, abs_of_nonneg h0]
  exact toNat_floor_eval h1 h2

lemma encCounts_eval_nonpos {amps : ℚ} (h0 : amps ≤ 0) {z : ℕ}
    (h1 : (z : ℚ) ≤ SCALE * (-amps)) (h2 : SCALE * (-amps) < z + 1) : encCounts amps = z := by
  rw [encCounts, abs_of_nonpos h0]
  exact toNat_floor_eval h1 h2

lemma encCounts_tenth : encCounts 0.1 = 32 :=
  encCounts_eval_nonneg (by norm_num) (by norm_num [SCALE]) (by norm_num [SCALE])

lemma encCounts_fifth : encCounts 0.2 = 64 :=
  encCounts_eval_nonneg (by norm_num) (by norm_num [SCALE]) (by norm_num [SCALE])

lemma encCounts_one : encCounts 1.0 = 324 :=
  encCounts_eval_nonneg (by norm_num) (by norm_num [SCALE]) (by norm_num [SCALE])

lemma encCounts_four : encCounts 4.0 = 1296 :=
  encCounts_eval_nonneg (by norm_num) (by norm_num [SCALE]) (by norm_num [SCALE])

lemma encCounts_neg_two : encCounts (-2.0) = 648 :=
  encCounts_eval_nonpos (by norm_num) (by norm_num [SCALE]) (by norm_num [SCALE])

lemma encCounts_zero : encCounts 0.0 = 0 :=
  encCounts_eval_nonneg (by norm_num) (by norm_num [SCALE]) (by norm_num [SCALE])

lemma encCounts_hundredth : encCounts 0.01 = 3 :=
  encCounts_eval_nonneg (by norm_num) (by norm_num [SCALE]) (by norm_num [SCALE])

lemma encCounts_neg_small : encCounts (-0.04) = 12 :=
  encCounts_eval_nonpos (by norm_num) (by norm_num [SCALE]) (by norm_num [SCALE])

lemma cm_tenth : current_map 0.1 = some [0x00, 0x20, 0x00, 0x01] := by
  have h := current_map_counts_split 0.1 (by rw [encCounts_tenth]; norm_num)
  rw [encCounts_tenth, if_neg (by norm_num : ¬ (0.1 : ℚ) < 0)] at h
  norm_num at h ⊢
  exact h

lemma cm_fifth : current_map 0.2 = some [0x00, 0x40, 0x00, 0x01] := by
  have h := current_map_counts_split 0.2 (by rw [encCounts_fifth]; norm_num)
  rw [encCounts_fifth, if_neg (by norm_num : ¬ (0.2 : ℚ) < 0)] at h
  norm_num at h ⊢
  exact h

lemma cm_one : current_map 1.0 = some [0x01, 0x44, 0x00, 0x01] := by
  have h := current_map_counts_split 1.0 (by rw [encCounts_one]; norm_num)
  rw [encCounts_one, if_neg (by norm_num : ¬ (1.0 : ℚ) < 0)] at h
  norm_num at h ⊢
  exact h

lemma cm_four : current_map 4.0 = some [0x05, 0x10, 0x00, 0x01] := by
  have h := current_map_counts_split 4.0 (by rw [encCounts_four]; norm_num)
  rw [encCounts_four, if_neg (by norm_num : ¬ (4.0 : ℚ) < 0)] at h
  norm_num at h ⊢
  exact h

lemma cm_neg_two : current_map (-2.0) = some [0x02, 0x88, 0x00, 0x00] := by
  have h := current_map_counts_split (-2.0) (by rw [encCounts_neg_two]; norm_num)
  rw [encCounts_neg_two, if_pos (by norm_num : (-2.0 : ℚ) < 0)] at h
  norm_num at h ⊢
  exact h

lemma cm_zero : current_map 0.0 = none :=
  current_map_small_none 0.0 (by rw [encCounts_zero]; norm_num)

lemma cm_hundredth : current_map 0.01 = none :=
  current_map_small_none 0.01 (by rw [encCounts_hundredth]; norm_num)

lemma cm_neg_small : current_map (-0.04) = none :=
  current_map_small_none (-0.04) (by rw [encCounts_neg_small]; norm_num)

/-- C1 (code bug): the arithmetic encoder `current_map` does NOT reproduce
the captured calibration fixtures that the spec states and that the dead
lookup table `CURRENT_MAP` in the same source file records.  The code maps
0.1 A to low byte 0x20 (32 counts, fixture says 0x23 = 35), 4.0 A to
[0x05, 0x10, 0x00, 0x01] (1296 counts, fixture says [0x05, 0x13, ...] =
1299), and -2.0 A to [0x02, 0x88, 0x00, 0x00] (648 counts, fixture says
[0x02, 0x29, ...] = 553): the slope (1299-35)/(4.0-0.1) is applied without
the intercept of the two calibration points it was derived from. -/
theorem current_map_fixture_mismatch :
    current_map 0.1 = some [0x00, 0x20, 0x00, 0x01] ∧
    current_map 4.0 = some [0x05, 0x10, 0x00, 0x01] ∧
    current_map (-2.0) = some [0x02, 0x88, 0x00, 0x00] ∧
    (PyKey.num (-0.1), [0x00, 0x23, 0x00, 0x00]) ∈ CURRENT_MAP ∧
    (PyKey.num 4.0, [0x05, 0x13, 0x00, 0x01]) ∈ CURRENT_MAP ∧
    (PyKey.num (-2.0), [0x02, 0x29, 0x00, 0x00]) ∈ CURRENT_MAP :=
  ⟨cm_tenth, cm_four, cm_neg_two, by norm_num [CURRENT_MAP], by norm_num [CURRENT_MAP],
    by norm_num [CURRENT_MAP]⟩

lemma encode_spec_fifth : encode_spec 0.2 = [0x00, 0x41, 0x00, 0x01] := by
  have hr : (round (|(0.2 : ℚ)| * SCALE)).toNat = 65 := by
    rw [abs_of_nonneg (by norm_num : (0 : ℚ) ≤ 0.2), round_eq]
    exact toNat_floor_eval (by norm_num [SCALE]) (by norm_num [SCALE])
  simp only [encode_spec, hr]
  rw [if_pos (by norm_num : (0 : ℚ) ≤ 0.2)]
  decide

/-- C2 counterexample: at amps = 0.2 the arithmetic reference of the spec
(rounding) gives low byte 0x41 = 65, while the source (Python `int`
truncation) gives low byte 0x40 = 64, so the encoder does NOT equal the
reference of the spec on every input. -/
theorem current_map_round_mismatch :
    encode_spec 0.2 = [0x00, 0x41, 0x00, 0x01] ∧
    current_map 0.2 = some [0x00, 0x40, 0x00, 0x01] :=
  ⟨encode_spec_fifth, cm_fifth⟩

/-- C2 (amended): on every input whose truncated count
`encCounts amps = int(abs(amps) * SCALE)` has at least two hex digits
(16 ≤ counts; below that the source raises, see C3), the payload equals
the arithmetic split `[counts >> 8, counts & 0xFF, 0x00, sign]` — the
hex-string slicing agrees with shift and mask — but with counts obtained
by truncation, not by the rounding the spec states. -/
theorem current_map_eq_arith (amps : ℚ) (h : 16 ≤ encCounts amps) :
    current_map amps =
      some [encCounts amps >>> 8, encCounts amps &&& 0xFF, 0x00,
        if 0 ≤ amps then 1 else 0] := by
  rw [current_map_counts_split amps h]
  have h1 : encCounts amps >>> 8 = encCounts amps / 256 := by
    rw [Nat.shiftRight_eq_div_pow]
  have h2 : encCounts amps &&& 0xFF = encCounts amps % 256 := by
    have h255 : (0xFF : ℕ) = 2 ^ 8 - 1 := by norm_num
    rw [h255, Nat.and_pow_two_sub_one_eq_mod]
  have h3 : (if amps < 0 then (0 : ℕ) else 1) = (if 0 ≤ amps then 1 else 0) := by
    by_cases hn : amps < 0
    · rw [if_pos hn, if_neg (not_le.2 hn)]
    · rw [if_neg hn, if_pos (not_lt.1 hn)]
  rw [h1, h2, h3]

/-- C2 witness: the amended equivalence evaluated at amps = 4.0. -/
theorem current_map_eq_arith_witness :
    16 ≤ encCounts 4.0 ∧
    current_map 4.0 =
      some [encCounts 4.0 >>> 8, encCounts 4.0 &&& 0xFF, 0x00,
        if (0 : ℚ) ≤ 4.0 then 1 else 0] :=
  ⟨by rw [encCounts_four]; norm_num,
    current_map_eq_arith 4.0 (by rw [encCounts_four]; norm_num)⟩

/-- C3 (code bug): the encoder is NOT total.  For inputs whose truncated
count has a single hex digit (|amps| below roughly 0.0494 A, counts < 16),
`hex(counts)` is for example `0x3`, the slice `mapped[-2:]` is `x3`, and
`int('x3', 16)` raises `ValueError`: `current_map` raises on 0.0, 0.01 and
-0.04 instead of producing a payload. -/
theorem current_map_small_input_raises :
    current_map 0.0 = none ∧ current_map 0.01 = none ∧ current_map (-0.04) = none :=
  ⟨cm_zero, cm_hundredth, cm_neg_small⟩

lemma current_map_last_byte (amps : ℚ) (p : List ℕ) (h : current_map amps = some p) :
    p.getD 3 0 = if amps < 0 then 0 else 1 := by
  simp only [current_map] at h
  rcases hA : pyIntHex (sliceLastTwo (pyHex
      (Int.toNat ⌊SCALE * (if amps < 0 then |amps| else amps)⌋))) with _ | low
  · simp only [hA] at h
    simp at h
  · simp only [hA] at h
    by_cases hz : sliceDropLastTwo (splitAfterX (pyHex
        (Int.toNat ⌊SCALE * (if amps < 0 then |amps| else amps)⌋))) = []
    · rw [if_neg (fun hcon => hcon hz)] at h
      obtain rfl := Option.some.inj h
      rfl
    · rw [if_pos hz] at h
      rcases hB : pyIntHex (sliceDropLastTwo (splitAfterX (pyHex
          (Int.toNat ⌊SCALE * (if amps < 0 then |amps| else amps)⌋)))) with _ | high
      · simp only [hB] at h
        simp at h
      · simp only [hB] at h
        obtain rfl := Option.some.inj h
        rfl

/-- C8 counterexample: amps = 0.0 lies in [-4.0, 4.0] but `encode(0.0)`
raises (see C3), so no payload exists whose sign byte could decode back
to the sign of the input. -/
theorem sign_roundtrip_fails_at_zero :
    (-4 : ℚ) ≤ 0.0 ∧ (0.0 : ℚ) ≤ 4 ∧ current_map 0.0 = none :=
  ⟨by norm_num, by norm_num, cm_zero⟩

/-- C8 (amended): for every amps in [-4.0, 4.0] on which the encoder
succeeds, the last byte of the payload is 0x01 exactly when amps >= 0. -/
theorem sign_roundtrip_on_success (amps : ℚ) (p : List ℕ)
    (_h1 : -4 ≤ amps) (_h2 : amps ≤ 4) (h : current_map amps = some p) :
    (p.getD 3 0 = 0x01 ↔ 0 ≤ amps) := by
  rw [current_map_last_byte amps p h]
  by_cases hn : amps < 0
  · rw [if_pos hn]
    constructor
    · intro hc
      exact absurd hc (by norm_num)
    · intro hc
      exact absurd hc (not_le.2 hn)
  · rw [if_neg hn]
    exact ⟨fun _ => not_lt.1 hn, fun _ => rfl⟩

/-- C8 witness: the sign law evaluated at amps = 1.0 with its actual
payload [0x01, 0x44, 0x00, 0x01]. -/
theorem sign_roundtrip_on_success_witness :
    (([0x01, 0x44, 0x00, 0x01] : List ℕ).getD 3 0 = 0x01 ↔ (0 : ℚ) ≤ 1.0) :=
  sign_roundtrip_on_success 1.0 [0x01, 0x44, 0x00, 0x01] (by norm_num) (by norm_num) cm_one

/-- Serial transport (pyvisa instrument of `controller.connect`), modelled
as a script of pending read results together with the write log.  An entry
`some b` is a byte the device sends; `none` is a read that times out after
the 2-second timeout (`pyvisa.errors.VisaIOError`); when the script is
exhausted every further read times out. -/
structure Transport where
  input : List (Option ℕ)
  written : List ℕ
deriving DecidableEq

/-- `self.inst.write_raw(bytes([b]))`: appends one byte to the write log. -/
def write_raw (t : Transport) (b : ℕ) : Transport :=
  { t with written := t.written ++ [b] }

/-- `controller._read_one_byte` (lines 77-82): one read, `none` on
timeout. -/
def read_one_byte (t : Transport) : Option ℕ × Transport :=
  match t.input with
  | [] => (none, t)
  | r :: rest => (r, { t with input := rest })

/-- Loop body of `controller._poll_for_byte` (lines 84-92) acting on the
read script: keep reading and discarding bytes until `expected` arrives or
a read times out. -/
def pollList (expected : ℕ) : List (Option ℕ) → Option ℕ × List (Option ℕ)
  | [] => (none, [])
  | none :: rest => (none, rest)
  | some b :: rest =>
    if b = expected then (some b, rest) else pollList expected rest

/-- `controller._poll_for_byte` (lines 84-92): reads only, never writes. -/
def poll_for_byte (t : Transport) (expected : ℕ) : Option ℕ × Transport :=
  ((pollList expected t.input).1, { t with input := (pollList expected t.input).2 })

/-- `controller._run_start_sequence` (lines 94-112): the ten
write-then-read steps of the START script.  Each `(read_one_byte _).2`
discards the read result exactly as the source does; `value_bytes.getD i 0`
is `value_bytes[i]` for the 4-byte payloads this method receives. -/
def run_start_sequence (t0 : Transport) (value_bytes : List ℕ) : Transport :=
  let t1 := (read_one_byte (write_raw t0 0x64)).2
  let t2 := (read_one_byte (write_raw t1 0x64)).2
  let t3 := (poll_for_byte (write_raw t2 0x1E) 0x12).2
  let t4 := (read_one_byte (write_raw t3 0x64)).2
  let t5 := (read_one_byte (write_raw t4 0x2C)).2
  let t6 := (read_one_byte (write_raw t5 (value_bytes.getD 0 0))).2
  let t7 := (read_one_byte (write_raw t6 (value_bytes.getD 1 0))).2
  let t8 := (read_one_byte (write_raw t7 (value_bytes.getD 2 0))).2
  let t9 := (read_one_byte (write_raw t8 (value_bytes.getD 3 0))).2
  (poll_for_byte (write_raw t9 0x00) 0x12).2

/-- `controller.set_current` (lines 114-125): encode with `current_map`
(its `ValueError` propagates, hence `Option`), then run the START
sequence. -/
def set_current (t : Transport) (amps : ℚ) : Option Transport :=
  (current_map amps).map (fun value_bytes => run_start_sequence t value_bytes)

/-- Field decoding of `controller.stop_and_query_field` (lines 165-174):
`raw_magnitude = (byte1 << 8) | byte2`, `scaled = raw / 10.0`, negated
exactly when the sign flag `byte3` is 0x01. -/
def decode_field (byte1 byte2 byte3 : ℕ) : ℚ :=
  let raw_magnitude : ℕ := (byte1 <<< 8) ||| byte2
  let scaled_magnitude : ℚ := (raw_magnitude : ℚ) / 10
  if byte3 = 0x01 then -scaled_magnitude else scaled_magnitude

/-- Part 1 of `controller.stop_and_query_field` (lines 135-139): ready
check, stop command, query command, up to just before the first capture. -/
def stop_query_part1 (t0 : Transport) : Transport :=
  let t1 := (read_one_byte (write_raw t0 0x64)).2
  let t2 := (poll_for_byte (write_raw t1 0x2B) 0x12).2
  write_raw t2 0x0A

/-- One capture step of `controller.stop_and_query_field` (pattern of
lines 141-151): read one byte; on timeout report `none` without writing;
on success echo the byte back. -/
def capture_one (t : Transport) : Option ℕ × Transport :=
  match read_one_byte t with
  | (none, t1) => (none, t1)
  | (some b, t1) => (some b, write_raw t1 b)

/-- Part 3 of `controller.stop_and_query_field` (lines 156-160): 0x4E with
read, bare 0x00 write with no read, ready check, end command poll. -/
def stop_query_part3 (t0 : Transport) : Transport :=
  let t1 := (read_one_byte (write_raw t0 0x4E)).2
  let t2 := write_raw t1 0x00
  let t3 := (read_one_byte (write_raw t2 0x64)).2
  (poll_for_byte (write_raw t3 0x82) 0x12).2

/-- `controller.stop_and_query_field` (lines 127-176): parts 1 and 3 and
the three capture steps in between; an early `return "Query Failed"` after
any failed capture, otherwise the decoded field.  The trailing
`try/except` around the decoding arithmetic cannot fire (ints only), so it
is not modelled. -/
def stop_and_query_field (t : Transport) : Except String ℚ × Transport :=
  match capture_one (stop_query_part1 t) with
  | (none, t1) => (Except.error "Query Failed", t1)
  | (some byte1, t1) =>
    match capture_one t1 with
    | (none, t2) => (Except.error "Query Failed", t2)
    | (some byte2, t2) =>
      match capture_one t2 with
      | (none, t3) => (Except.error "Query Failed", t3)
      | (some byte3, t3) =>
        (Except.ok (decode_field byte1 byte2 byte3), stop_query_part3 t3)

/-- `controller.pulse` (lines 188-198): `set_current`, `time.sleep` for
`duration_sec` (no effect on the byte protocol), `stop_and_query_field`;
the decoded field is printed and discarded, and the method body has no
return statement, so Python returns `None` (the `none` in the first
component of the result pair). -/
def pulse (t : Transport) (amps duration_sec : ℚ) : Option (Option ℚ × Transport) :=
  (set_current t amps).map (fun t1 =>
    let result := stop_and_query_field t1
    (none, result.2))

@[simp] lemma write_raw_written (t : Transport) (b : ℕ) :
    (write_raw t b).written = t.written ++ [b] := rfl

@[simp] lemma write_raw_input (t : Transport) (b : ℕ) :
    (write_raw t b).input = t.input := rfl

@[simp] lemma read_one_byte_snd_written (t : Transport) :
    (read_one_byte t).2.written = t.written := by
  rcases t with ⟨ins, ws⟩
  cases ins <;> rfl

@[simp] lemma poll_for_byte_snd_written (t : Transport) (e : ℕ) :
    (poll_for_byte t e).2.written = t.written := rfl

@[simp] lemma read_one_byte_cons (r : Option ℕ) (ins : List (Option ℕ)) (ws : List ℕ) :
    read_one_byte ⟨r :: ins, ws⟩ = (r, ⟨ins, ws⟩) := rfl

@[simp] lemma read_one_byte_nil (ws : List ℕ) :
    read_one_byte ⟨[], ws⟩ = (none, ⟨[], ws⟩) := rfl

/-- C4: for every transport state and payload, the START sequence writes
exactly the ten bytes 0x64, 0x64, 0x1E, 0x64, 0x2C, the four payload
bytes, 0x00, in that order and nothing else (first conjunct), and on a
read script shaped as its ten steps expect — one read per ACK step
(the read result being irrelevant), one matching byte per POLL step — it
consumes exactly those ten reads in order, pairing each write with its
step read mode (second conjunct). -/
theorem run_start_sequence_trace :
    (∀ t vb, (run_start_sequence t vb).written =
      t.written ++ [0x64, 0x64, 0x1E, 0x64, 0x2C, vb.getD 0 0, vb.getD 1 0,
        vb.getD 2 0, vb.getD 3 0, 0x00]) ∧
    (∀ ws rest vb r1 r2 r4 r5 r6 r7 r8 r9,
      run_start_sequence
        ⟨r1 :: r2 :: some 0x12 :: r4 :: r5 :: r6 :: r7 :: r8 :: r9 :: some 0x12 :: rest, ws⟩ vb =
        ⟨rest, ws ++ [0x64, 0x64, 0x1E, 0x64, 0x2C, vb.getD 0 0, vb.getD 1 0,
          vb.getD 2 0, vb.getD 3 0, 0x00]⟩) := by
  constructor
  · intro t vb
    simp [run_start_sequence]
  · intro ws rest vb r1 r2 r4 r5 r6 r7 r8 r9
    simp [run_start_sequence, poll_for_byte, pollList, write_raw]

/-- C9: the poll loop itself never writes (the command byte is written
exactly once by the step that precedes the poll, see the sequence traces),
a first read that already matches terminates the poll after exactly that
one read, a non-matching byte is discarded and polling continues, and a
timeout ends the poll (the sequence then continues). -/
theorem poll_step_semantics :
    (∀ t e, (poll_for_byte t e).2.written = t.written) ∧
    (∀ e rest, pollList e (some e :: rest) = (some e, rest)) ∧
    (∀ e b rest, b ≠ e → pollList e (some b :: rest) = pollList e rest) ∧
    (∀ e rest, pollList e (none :: rest) = (none, rest)) :=
  ⟨fun _ _ => rfl,
    fun e rest => by simp [pollList],
    fun e b rest hne => by simp [pollList, hne],
    fun _ _ => rfl⟩

/-- C9 witness: polling for 0x12 discards a first non-matching 0x05. -/
theorem poll_step_semantics_witness :
    pollList 0x12 [some 0x05, some 0x12] = pollList 0x12 [some 0x12] :=
  poll_step_semantics.2.2.1 0x12 0x05 [some 0x12] (by decide)

lemma capture_one_none_written (t u : Transport) (h : capture_one t = (none, u)) :
    u.written = t.written := by
  rcases t with ⟨ins, ws⟩
  cases ins with
  | nil =>
    injection h with _ h2
    rw [← h2]
  | cons r rest =>
    cases r with
    | none =>
      injection h with _ h2
      rw [← h2]
    | some b =>
      injection h with h1 _
      exact Option.noConfusion h1

/-- C5: whichever of the three capture reads times out first, the
stop-and-query routine immediately returns the query-failure result, the
final transport state is exactly the state at the failed read (so no byte
of the remainder of the script is written: part 3 never runs), and the
decoder is never reached (the result is an error, and `Except.ok` with the
decoded field only arises after three successful captures). -/
theorem stop_query_capture_timeout_aborts :
    (∀ t u, capture_one (stop_query_part1 t) = (none, u) →
      stop_and_query_field t = (Except.error "Query Failed", u) ∧
        u.written = (stop_query_part1 t).written) ∧
    (∀ t b1 u1 u, capture_one (stop_query_part1 t) = (some b1, u1) →
      capture_one u1 = (none, u) →
      stop_and_query_field t = (Except.error "Query Failed", u) ∧
        u.written = u1.written) ∧
    (∀ t b1 b2 u1 u2 u, capture_one (stop_query_part1 t) = (some b1, u1) →
      capture_one u1 = (some b2, u2) → capture_one u2 = (none, u) →
      stop_and_query_field t = (Except.error "Query Failed", u) ∧
        u.written = u2.written) := by
  refine ⟨?_, ?_, ?_⟩
  · intro t u h1
    exact ⟨by simp only [stop_and_query_field, h1], capture_one_none_written _ _ h1⟩
  · intro t b1 u1 u h1 h2
    exact ⟨by simp only [stop_and_query_field, h1, h2], capture_one_none_written _ _ h2⟩
  · intro t b1 b2 u1 u2 u h1 h2 h3
    exact ⟨by simp only [stop_and_query_field, h1, h2, h3], capture_one_none_written _ _ h3⟩

/-- C5 witness: a concrete mock transport that delivers the stop-command
handshake, two capture bytes 0xAA and 0xBB, and then times out on the
third capture: the call fails and the write log stops at the echo of
0xBB. -/
theorem stop_query_capture_timeout_aborts_witness :
    stop_and_query_field ⟨[some 0x00, some 0x12, some 0xAA, some 0xBB], []⟩ =
      (Except.error "Query Failed",
        (⟨[], [0x64, 0x2B, 0x0A, 0xAA, 0xBB]⟩ : Transport)) ∧
    (⟨[], [0x64, 0x2B, 0x0A, 0xAA, 0xBB]⟩ : Transport).written =
      (⟨[], [0x64, 0x2B, 0x0A, 0xAA, 0xBB]⟩ : Transport).written :=
  stop_query_capture_timeout_aborts.2.2
    ⟨[some 0x00, some 0x12, some 0xAA, some 0xBB], []⟩ 0xAA 0xBB
    ⟨[some 0xBB], [0x64, 0x2B, 0x0A, 0xAA]⟩
    ⟨[], [0x64, 0x2B, 0x0A, 0xAA, 0xBB]⟩
    ⟨[], [0x64, 0x2B, 0x0A, 0xAA, 0xBB]⟩ rfl rfl rfl

lemma shiftLeft8_lor (b1 b2 : ℕ) (h : b2 < 256) : (b1 <<< 8) ||| b2 = 256 * b1 + b2 := by
  have h2 : b2 < 2 ^ 8 := by
    norm_num
    exact h
  rw [Nat.shiftLeft_eq, Nat.mul_comm b1 (2 ^ 8), ← Nat.mul_add_lt_is_or h2 b1]

lemma decode_de_pos : decode_field 0x00 0xDE 0x00 = 111 / 5 := by
  simp only [decode_field]
  rw [shiftLeft8_lor 0x00 0xDE (by norm_num), if_neg (by norm_num : (0x00 : ℕ) ≠ 0x01)]
  norm_num

lemma decode_de_neg : decode_field 0x00 0xDE 0x01 = -(111 / 5) := by
  simp only [decode_field]
  rw [shiftLeft8_lor 0x00 0xDE (by norm_num)]
  norm_num

/-- C6: for all byte values, the decoder returns `((byte1 << 8) | byte2) /
10`, negated exactly when the sign flag byte3 is 0x01 (stated with the
shift-or collapsed to its arithmetic value `256 * byte1 + byte2`, which
needs byte2 < 256 — true of every byte); in particular the captured
fixtures decode to 22.2 mT and -22.2 mT. -/
theorem decode_field_formula :
    (∀ b1 b2 b3 : ℕ, b2 < 256 →
      decode_field b1 b2 b3 =
        (if b3 = 0x01 then -1 else 1) * (((256 * b1 + b2 : ℕ) : ℚ) / 10)) ∧
    decode_field 0x00 0xDE 0x00 = 111 / 5 ∧
    decode_field 0x00 0xDE 0x01 = -(111 / 5) := by
  refine ⟨?_, decode_de_pos, decode_de_neg⟩
  intro b1 b2 b3 h
  simp only [decode_field]
  rw [shiftLeft8_lor b1 b2 h]
  by_cases h3 : b3 = 0x01
  · rw [if_pos h3, if_pos h3]
    ring
  · rw [if_neg h3, if_neg h3]
    ring

/-- C6 witness: the general formula evaluated at bytes (0x00, 0x05, 0x00). -/
theorem decode_field_formula_witness :
    decode_field 0x00 0x05 0x00 =
      (if (0x00 : ℕ) = 0x01 then -1 else 1) * (((256 * 0x00 + 0x05 : ℕ) : ℚ) / 10) :=
  decode_field_formula.1 0x00 0x05 0x00 (by norm_num)

/-- C7 counterexample: on a fully scripted mock transport, `pulse(1.0, 0)`
runs the two protocol scripts back to back — the write log is exactly the
START trace followed by the STOP/QUERY trace — but the value it hands back
to the caller is Python `None` (the `none` component), NOT the Reading,
even though the scripted capture bytes (0x00, 0xDE, 0x00) decode to
22.2 mT: the method prints the field and falls off the end without a
return statement. -/
theorem pulse_returns_none :
    pulse ⟨[some 0x00, some 0x00, some 0x12, some 0x00, some 0x00, some 0x00,
        some 0x00, some 0x00, some 0x00, some 0x12, some 0x00, some 0x12,
        some 0x00, some 0xDE, some 0x00, some 0x00, some 0x00, some 0x12], []⟩ 1.0 0 =
      some (none,
        ⟨[], [0x64, 0x64, 0x1E, 0x64, 0x2C, 0x01, 0x44, 0x00, 0x01, 0x00,
          0x64, 0x2B, 0x0A, 0x00, 0xDE, 0x00, 0x4E, 0x00, 0x64, 0x82]⟩) ∧
    decode_field 0x00 0xDE 0x00 = 111 / 5 := by
  constructor
  · rw [pulse, set_current, cm_one]
    simp [run_start_sequence, stop_and_query_field, stop_query_part1, stop_query_part3,
      capture_one, poll_for_byte, pollList, write_raw]
  · exact decode_de_pos

/-- C7 (amended): `pulse(amps, duration)` is the strict composition of
`set_current(amps)` followed by `stop_and_query_field()` with no protocol
step inserted, but it discards the Reading and returns `None`.  Stated for
amps = 1.0 over a transport scripted with arbitrary capture bytes b1, b2,
b3 and an arbitrary remaining script: the composite consumes exactly the
eighteen scripted reads and writes exactly the ten START bytes followed by
the ten STOP/QUERY bytes (the three capture echoes among them), the value
returned to the caller is `None`, and the Reading that was computed and
then dropped is exactly the decode of the scripted capture bytes (second
conjunct).  The real-time hold of `time.sleep(duration)` has no byte-level
effect and is outside this model. -/
theorem pulse_strict_composition (b1 b2 b3 : ℕ) (rest : List (Option ℕ)) (ws : List ℕ) :
    pulse ⟨[some 0x00, some 0x00, some 0x12, some 0x00, some 0x00, some 0x00,
        some 0x00, some 0x00, some 0x00, some 0x12, some 0x00, some 0x12,
        some b1, some b2, some b3, some 0x00, some 0x00, some 0x12] ++ rest, ws⟩ 1.0 0 =
      some (none,
        ⟨rest, ws ++ [0x64, 0x64, 0x1E, 0x64, 0x2C, 0x01, 0x44, 0x00, 0x01, 0x00,
          0x64, 0x2B, 0x0A, b1, b2, b3, 0x4E, 0x00, 0x64, 0x82]⟩) ∧
    (stop_and_query_field (run_start_sequence
        ⟨[some 0x00, some 0x00, some 0x12, some 0x00, some 0x00, some 0x00,
          some 0x00, some 0x00, some 0x00, some 0x12, some 0x00, some 0x12,
          some b1, some b2, some b3, some 0x00, some 0x00, some 0x12] ++ rest, ws⟩
        [0x01, 0x44, 0x00, 0x01])).1 = Except.ok (decode_field b1 b2 b3) := by
  constructor
  · rw [pulse, set_current, cm_one]
    simp [run_start_sequence, stop_and_query_field, stop_query_part1, stop_query_part3,
      capture_one, poll_for_byte, pollList, write_raw]
  · simp [run_start_sequence, stop_and_query_field, stop_query_part1, stop_query_part3,
      capture_one, poll_for_byte, pollList, write_raw]

/-- Attribute names defined on the Python class `controller`
(HolmarcMagnet.py lines 5-198): the class-level table and the methods, in
source order. -/
def controllerMethodNames : List String :=
  ["CURRENT_MAP", "current_map", "__init__", "connect", "disconnect",
   "_read_one_byte", "_poll_for_byte", "_run_start_sequence", "set_current",
   "stop_and_query_field", "current_map_test", "pulse"]

/-- The attribute name `controller.__init__` invokes on `self` at line 47:
`self.coonect()` — a misspelling of `connect`. -/
def controller_init_attr : String := "coonect"

/-- `controller.__init__` (lines 42-47): store the resource name and baud
rate, build the pyvisa resource manager (external, assumed to succeed),
then call the attribute named `coonect`; Python raises `AttributeError`
when the looked-up name is not defined on the class. -/
def controller_init (resource_name : String) : Except String (String × ℕ) :=
  if controller_init_attr ∈ controllerMethodNames then
    Except.ok (resource_name, 19200)
  else
    Except.error "AttributeError"

/-- C10: constructing the controller always fails, for every resource
name, because `__init__` invokes the undefined attribute `coonect`
(the defined method is spelled `connect`), so the `AttributeError` fires
before any operation can be used. -/
theorem controller_init_always_fails (resource_name : String) :
    controller_init resource_name = Except.error "AttributeError" := by
  rw [controller_init, if_neg]
  decide

end Holmarc
